import Mathlib

/-!
# TopProvers — verification of the snapshot scheduler and metrics aggregation

A shallow embedding of the two React components of the TopProvers repository:

* `src/TopProvers.jsx` — the snapshot-scheduling component: `parseCycles`,
  `isSnapshotWindow`, `snapshotBucketKey`, `persistSnapshot`, the `maybeSnapshot`
  tick, and the timers installed/cleared by its two effects;
* the unnamed component file — `fetchData`'s group/sum/sort/slice pipeline.

JavaScript numbers are modelled as exact rationals (`ℚ`); `NaN` is modelled by
`none` in `Option ℚ` where it can arise.  Exceptions thrown by `localStorage`
or `fetch` are modelled by explicit failure flags consumed inside the embedded
functions, which are total — totality embeds "never raises to the caller".
-/

namespace TopProvers

/-! ## JavaScript values and numeric coercions -/

/-- A JSON/JavaScript value as it can appear in a fetched row field.
`NaN` cannot appear in JSON input, so it has no constructor here; `NaN` as a
*result* of coercion is `none : Option ℚ`. -/
inductive JsVal where
  | jnull
  | jundef
  | jnum (q : ℚ)
  | jstr (s : String)
  deriving DecidableEq, Repr

/-- JavaScript truthiness for the values of `JsVal` (`null`, `undefined`, `0`
and `""` are falsy). -/
def JsVal.falsy : JsVal → Bool
  | .jnull => true
  | .jundef => true
  | .jnum q => q == 0
  | .jstr s => s == ""

/-- Model of `String.prototype.trim()`, modelled at the character-list level: drop
whitespace from both ends. -/
def jsTrimList (cs : List Char) : List Char :=
  ((cs.dropWhile Char.isWhitespace).reverse.dropWhile Char.isWhitespace).reverse

/-- Numeric value of a list of decimal digit characters, most significant
first (the value a JavaScript number parser assigns to a digit run). -/
def decNatVal (cs : List Char) : ℕ :=
  cs.foldl (fun acc c => acc * 10 + (c.toNat - 48)) 0

/-- A character matched by the regex class `[\d.]`. -/
def numericChar (c : Char) : Bool :=
  c.isDigit || c == '.'

/-- The `parseFloat` semantics restricted to its use site, where the argument is a
non-empty string of digits and dots (the text captured by `^([\d.]+)`):
an integer part, optionally followed by `.` and a fraction part, parsed as far
as possible; `none` models a `NaN` result (no digits before the parse stops,
e.g. `"."` or `"..5"`). -/
def parseFloatDigitsDots (cs : List Char) : Option ℚ :=
  let intPart := cs.takeWhile Char.isDigit
  match cs.dropWhile Char.isDigit with
  | '.' :: rest =>
    let fracPart := rest.takeWhile Char.isDigit
    if intPart.isEmpty && fracPart.isEmpty then none
    else some ((decNatVal intPart : ℚ) + (decNatVal fracPart : ℚ) / (10 : ℚ) ^ fracPart.length)
  | _ => if intPart.isEmpty then none else some (decNatVal intPart : ℚ)

/-- The function `parseCycles` (source lines 6–14).  The argument is the value after the
`value == null` check and `String(value)` coercion: `none` stands for
`null`/`undefined`, `some s` for any other value rendered as the string `s`.
Steps: trim; match `^([\d.]+)` (no match → 0); `parseFloat` the captured text;
a non-finite result → 0.  In the exact-rational model every parsed value is
finite, so the `Number.isFinite` guard only rejects the `NaN` case. -/
def parseCycles (value : Option String) : ℚ :=
  match value with
  | none => 0
  | some v =>
    let matched := (jsTrimList v.data).takeWhile numericChar
    if matched.isEmpty then 0
    else
      match parseFloatDigitsDots matched with
      | none => 0
      | some q => q

/-- Model of `Number(s)` for a string argument: trim; empty → 0; a decimal literal with
optional sign and optional fraction → its value; any other form → `NaN`
(`none`).  (Hex, binary and exponent literal forms are never produced by this
code's data sources and are not modelled.) -/
def strToNumber (s : String) : Option ℚ :=
  let t := jsTrimList s.data
  if t.isEmpty then some 0
  else
    let signAndRest : ℚ × List Char :=
      match t with
      | '-' :: r => (-1, r)
      | '+' :: r => (1, r)
      | r => (1, r)
    let sign := signAndRest.1
    let rest := signAndRest.2
    let intPart := rest.takeWhile Char.isDigit
    match rest.dropWhile Char.isDigit with
    | [] => if intPart.isEmpty then none else some (sign * (decNatVal intPart : ℚ))
    | '.' :: r2 =>
      let fracPart := r2.takeWhile Char.isDigit
      if (r2.dropWhile Char.isDigit).isEmpty && !(intPart.isEmpty && fracPart.isEmpty) then
        some (sign * ((decNatVal intPart : ℚ) +
          (decNatVal fracPart : ℚ) / (10 : ℚ) ^ fracPart.length))
      else none
    | _ => none

/-- Model of `Number(v)`: `null → 0`, `undefined → NaN`, a number is itself, a string
goes through `strToNumber`.  `none` models `NaN`. -/
def jsNumber : JsVal → Option ℚ
  | .jnull => some 0
  | .jundef => none
  | .jnum q => some q
  | .jstr s => strToNumber s

/-! ## The three tracked provers and row normalisation (`fetchData`, lines 150–165) -/

/-- One entry of the hard-coded `PROVERS` list. -/
structure ProverRef where
  label : String
  addr : String
  deriving DecidableEq, Repr

/-- The hard-coded `PROVERS` constant (source lines 17–21). -/
def PROVERS : List ProverRef :=
  [⟨"Prover 1", "0x6220892679110898abd78847d6f0a639e3408dc7"⟩,
   ⟨"Prover 2", "0x34a2df023b535c1bd79a791b259adea947f603e3"⟩,
   ⟨"Prover 3", "0x11973257c9210d852084f7b97f672080c1dbbb53"⟩]

/-- A raw row of the fetched API response, with the three fields `fetchData`
reads.  `prover_addr` is a string field (`none` = absent/null); `orders_taken`
keeps its full JavaScript-value shape because `Number(r.orders_taken || 0)`
distinguishes value kinds; `cycles_proved` is taken after the `String()`
coercion inside `parseCycles` (`none` = `null`/`undefined`). -/
structure ApiRow where
  prover_addr : Option String
  orders_taken : JsVal
  cycles_proved : Option String
  deriving DecidableEq, Repr

/-- A normalised table row (the `MetricsRow` of the spec): what `fetchData`
stores in `rows` and what snapshots carry.  `orders_taken` is a JavaScript
number that may be `NaN` (`none`); `cycles_proved` comes from `parseCycles`,
which never returns `NaN`. -/
structure Row where
  label : String
  addr : String
  orders_taken : Option ℚ
  cycles_proved : ℚ
  deriving DecidableEq, Repr

/-- The key under which a fetched row lands in `byAddr`:
`(r.prover_addr || "").toLowerCase()`. -/
def rowKey (r : ApiRow) : String :=
  (r.prover_addr.getD "").toLower

/-- Model of `Object.fromEntries(data.map ...)` followed by keyed lookup: on duplicate
keys `fromEntries` keeps the *last* entry, so the lookup finds the last row
whose key equals `k`. -/
def byAddrFind (data : List ApiRow) (k : String) : Option ApiRow :=
  data.reverse.find? (fun r => rowKey r == k)

/-- Model of `Number(r.orders_taken || 0)` (source line 154). -/
def ordersTakenField (v : JsVal) : Option ℚ :=
  jsNumber (if v.falsy then .jnum 0 else v)

/-- The `table` built by `fetchData` (source lines 160–165): one entry per
hard-coded prover, in `PROVERS` order, with `?? 0` defaults when the prover is
absent from the response. -/
def mkTable (data : List ApiRow) : List Row :=
  PROVERS.map fun p =>
    { label := p.label
      addr := p.addr
      orders_taken :=
        match byAddrFind data p.addr.toLower with
        | some r => ordersTakenField r.orders_taken
        | none => some 0
      cycles_proved :=
        match byAddrFind data p.addr.toLower with
        | some r => parseCycles r.cycles_proved
        | none => 0 }

/-! ## Wall-clock instants, the snapshot window and the bucket key -/

/-- A wall-clock instant as seen through the `Date` UTC getters this code
uses.  Field names mirror `getUTCFullYear`, `getUTCMonth` (0-based),
`getUTCDate`, `getUTCHours`, `getUTCMinutes`; years are taken in ℕ (the
common-era range this system runs in). -/
structure JsDate where
  year : ℕ
  month0 : ℕ
  day : ℕ
  hour : ℕ
  minute : ℕ
  deriving DecidableEq, Repr

/-- The function `isSnapshotWindow` (source lines 69–77): the anchor-alignment test
`(h - 10 + 24) % 2 === 0` (computed in ℤ, as JavaScript does) and the
freshness test `m < 5`. -/
def isSnapshotWindow (now : JsDate) : Bool :=
  let h : ℤ := now.hour
  let m : ℤ := now.minute
  let anchorOk := (h - 10 + 24) % 2 == 0
  let minuteOk := m < 5
  anchorOk && minuteOk

/-- Decimal digit characters of `n`, most significant first, with explicit
fuel (any fuel with `n < 10 ^ fuel` gives the digits of `n`); this is the
`String(n)` rendering of a non-negative integer. -/
def natDecDigitsAux : ℕ → ℕ → List Char
  | 0, _ => []
  | fuel + 1, n =>
    if n < 10 then [Nat.digitChar n]
    else natDecDigitsAux fuel (n / 10) ++ [Nat.digitChar (n % 10)]

/-- Model of `String(n)` for `n : ℕ`, as a character list. -/
def natDecDigits (n : ℕ) : List Char :=
  natDecDigitsAux (n + 1) n

/-- Model of `String(n)` for `n : ℕ`. -/
def natDecStr (n : ℕ) : String :=
  ⟨natDecDigits n⟩

/-- Model of `String(n).padStart(2, "0")`, as a character list. -/
def pad2Digits (n : ℕ) : List Char :=
  List.replicate (2 - (natDecDigits n).length) '0' ++ natDecDigits n

/-- Model of `String(n).padStart(2, "0")`. -/
def pad2 (n : ℕ) : String :=
  ⟨pad2Digits n⟩

/-- The function `snapshotBucketKey` (source lines 79–86): the template literal
`${y}-${mo}-${d}T${h}:00Z` with `mo`, `d`, `h` zero-padded to two characters
and the year rendered bare. -/
def snapshotBucketKey (now : JsDate) : String :=
  natDecStr now.year ++ "-" ++ pad2 (now.month0 + 1) ++ "-" ++ pad2 now.day ++
    "T" ++ pad2 now.hour ++ ":00Z"

/-! ## Snapshots, persistence and the scheduler tick (`maybeSnapshot`, lines 188–211) -/

/-- The snapshot payload (source lines 198–207).  `captured_at` is
`now.toISOString()`; the ISO rendering is abstracted to the instant it
uniquely renders. -/
structure Snapshot where
  bucket : String
  captured_at : JsDate
  provers : List Row
  deriving DecidableEq, Repr

/-- The payload literal of lines 198–207 (the field-by-field copy of each row
performed by `rows.map`). -/
def mkPayload (rows : List Row) (now : JsDate) (bucket : String) : Snapshot :=
  { bucket := bucket
    captured_at := now
    provers := rows.map fun r =>
      { label := r.label
        addr := r.addr
        orders_taken := r.orders_taken
        cycles_proved := r.cycles_proved } }

/-- One `maybeSnapshot` tick as a function of the current rows, the clock and
the remembered `lastBucketRef.current`; returns the new remembered bucket and
the snapshot handed to `persistSnapshot`, if any. -/
def maybeSnapshot (rows : List Row) (now : JsDate) (lastBucket : Option String) :
    Option String × Option Snapshot :=
  if rows.isEmpty then (lastBucket, none)
  else if !isSnapshotWindow now then (lastBucket, none)
  else
    let bucket := snapshotBucketKey now
    if lastBucket == some bucket then (lastBucket, none)
    else (some bucket, some (mkPayload rows now bucket))

/-- The state-affecting actions of one `maybeSnapshot` tick, in program order:
line 196 (`lastBucketRef.current = bucket`) strictly precedes line 210
(`persistSnapshot(payload)`). -/
inductive SchedEvent where
  | setBucket (b : String)
  | callPersist (s : Snapshot)
  deriving DecidableEq, Repr

/-- The action trace of one `maybeSnapshot` tick. -/
def maybeSnapshotTrace (rows : List Row) (now : JsDate) (lastBucket : Option String) :
    List SchedEvent :=
  if rows.isEmpty then []
  else if !isSnapshotWindow now then []
  else
    let bucket := snapshotBucketKey now
    if lastBucket == some bucket then []
    else [SchedEvent.setBucket bucket, SchedEvent.callPersist (mkPayload rows now bucket)]

/-- The `localStorage` step of `persistSnapshot` (source lines 96–99): push,
then `splice(0, prev.length - 1000)` when the length exceeds 1000. -/
def appendCapped (log : List Snapshot) (snap : Snapshot) : List Snapshot :=
  let prev := log ++ [snap]
  if prev.length > 1000 then prev.drop (prev.length - 1000) else prev

/-- The local snapshot store.  `failing = true` models `localStorage`
getItem/setItem throwing (the `catch` of lines 101–104 swallows it and leaves
the stored log unchanged). -/
structure Store where
  failing : Bool
  log : List Snapshot
  deriving DecidableEq, Repr

/-- The function `persistSnapshot` (source lines 93–127) as a total function — totality
embeds "never raises to the caller".  Returns the updated store and the list
of payloads POSTed to the optional sink (`postOk = false` models a failed
`fetch`, whose `catch` swallows the error). -/
def persistSnapshot (snap : Snapshot) (st : Store) (endpoint : Option String)
    (postOk : Bool) : Store × List Snapshot :=
  let st1 := if st.failing then st else { st with log := appendCapped st.log snap }
  match endpoint with
  | none => (st1, [])
  | some _ => if postOk then (st1, [snap]) else (st1, [])

/-! ## A running session of the component -/

/-- The externally visible happenings that drive the component's state: a
successful poll (`fetchData` storing a normalised table), a failed poll
(caught; `rows` unchanged), and a scheduler tick with the storage health it
encounters. -/
inductive SessionEvent where
  | fetchOk (data : List ApiRow)
  | fetchErr
  | tick (now : JsDate) (storeFailing : Bool)
  deriving DecidableEq, Repr

/-- Component state over one running session: the `rows` React state, the
`lastBucketRef`, the `localStorage` log, and (for specification purposes) all
snapshots this session handed to `persistSnapshot`. -/
structure Session where
  rows : List Row
  lastBucket : Option String
  log : List Snapshot
  fired : List Snapshot
  deriving DecidableEq, Repr

/-- One session step. -/
def sessionStep (s : Session) : SessionEvent → Session
  | .fetchOk data => { s with rows := mkTable data }
  | .fetchErr => s
  | .tick now failing =>
    match maybeSnapshot s.rows now s.lastBucket with
    | (lb, none) => { s with lastBucket := lb }
    | (lb, some snap) =>
      { s with
          lastBucket := lb
          log := if failing then s.log else appendCapped s.log snap
          fired := s.fired ++ [snap] }

/-- A fresh session: no rows yet, no remembered bucket; the stored log may
hold snapshots from earlier sessions. -/
def initSession (log0 : List Snapshot) : Session :=
  ⟨[], none, log0, []⟩

/-- Run a session over a list of events. -/
def runSession (log0 : List Snapshot) (evs : List SessionEvent) : Session :=
  evs.foldl sessionStep (initSession log0)

/-! ## The component's timers (effects at lines 138–184 and 187–218) -/

/-- The three timers the component creates. -/
inductive TimerKind where
  | pollInterval
  | schedInterval
  | schedInitialTimeout
  deriving DecidableEq, Repr

/-- Either `setInterval` with a period or `setTimeout` with a delay. -/
inductive TimerSched where
  | interval (period : ℕ)
  | timeout (delay : ℕ)
  deriving DecidableEq, Repr

/-- A created timer: its schedule, creation time, and the time at which a
cleanup clears it (`none` when no cleanup ever clears it). -/
structure TimerRec where
  kind : TimerKind
  sched : TimerSched
  start : ℕ
  cancelAt : Option ℕ
  deriving DecidableEq, Repr

/-- The timers of one mounted component whose snapshot effect last ran at
time `r` and whose teardown runs at time `T`: the poll effect's 60 s interval
(line 179, cleared by its cleanup at line 182), the snapshot effect's 60 s
interval (line 213, cleared by its cleanup at line 217), and the snapshot
effect's 500 ms initial-check `setTimeout` (line 215), whose handle is
discarded — no cleanup clears it. -/
def componentTimers (r T : ℕ) : List TimerRec :=
  [⟨.pollInterval, .interval 60000, 0, some T⟩,
   ⟨.schedInterval, .interval 60000, r, some T⟩,
   ⟨.schedInitialTimeout, .timeout 500, r, none⟩]

/-- Whether timer `tm` fires a tick at time `t`: an interval fires at
`start + period`, `start + 2·period`, …; a timeout fires once at
`start + delay`; a cleared timer fires nothing from its clear time on. -/
def TimerRec.firesAt (tm : TimerRec) (t : ℕ) : Bool :=
  (match tm.sched with
   | .interval p => decide (0 < p) && decide (tm.start < t) && (t - tm.start) % p == 0
   | .timeout d => t == tm.start + d) &&
  (match tm.cancelAt with
   | none => true
   | some c => decide (t < c))

/-! ## The unnamed component file: group, sum, sort, slice (`fetchData`, lines 20–35) -/

/-- A raw row as read by the unnamed component: `prover_addr` (string field,
`none` = absent/null) and `total_cycles` (any JSON value). -/
structure OrderRow where
  prover_addr : Option String
  total_cycles : JsVal
  deriving DecidableEq, Repr

/-- Model of `row.prover_addr || "unknown"`: a missing or empty address groups under
`"unknown"`. -/
def orderRowKey (r : OrderRow) : String :=
  match r.prover_addr with
  | some s => if s == "" then "unknown" else s
  | none => "unknown"

/-- Model of `Number(row.total_cycles) || 0`: the numeric coercion, with a `NaN` (and
`0` itself) collapsed to `0` by `|| 0`. -/
def totalCyclesNum (v : JsVal) : ℚ :=
  match jsNumber v with
  | none => 0
  | some q => q

/-- Model of `totals[addr] = (totals[addr] || 0) + cycles` on an insertion-ordered
association list (a JavaScript object preserves insertion order for the
non-index-like string keys used here). -/
def addCycles (totals : List (String × ℚ)) (k : String) (q : ℚ) : List (String × ℚ) :=
  match totals with
  | [] => [(k, q)]
  | (k2, q2) :: rest => if k2 == k then (k2, q2 + q) :: rest else (k2, q2) :: addCycles rest k q

/-- The `totals` object after the `rows.forEach` grouping loop. -/
def buildTotals (rows : List OrderRow) : List (String × ℚ) :=
  rows.foldl (fun t r => addCycles t (orderRowKey r) (totalCyclesNum r.total_cycles)) []

/-- The comparator `(a, b) => b.cycles - a.cycles` as the ordering it sorts
by: descending summed cycles. -/
def cyclesDescOrder (a b : String × ℚ) : Prop :=
  b.2 ≤ a.2

instance : DecidableRel cyclesDescOrder := fun a b =>
  inferInstanceAs (Decidable (b.2 ≤ a.2))

instance : IsTotal (String × ℚ) cyclesDescOrder :=
  ⟨fun a b => le_total b.2 a.2⟩

instance : IsTrans (String × ℚ) cyclesDescOrder :=
  ⟨fun _ _ _ h1 h2 => le_trans h2 h1⟩

/-- The displayed `top` list: `Object.entries(totals)` mapped to
`{addr, cycles}` pairs, sorted by descending cycles and sliced to the first
five. -/
def topProversList (rows : List OrderRow) : List (String × ℚ) :=
  ((buildTotals rows).insertionSort cyclesDescOrder).take 5

/-! ## Theorems -/

/-- C2: for every wall-clock instant, `isSnapshotWindow` returns true iff
`(h - 10 + 24) mod 2 = 0` and `m < 5`; equivalently, iff the UTC hour is even
and the minute is below 5 — so it is false at every odd hour and at every
minute ≥ 5. -/
theorem snapshot_window_iff (d : JsDate) :
    (isSnapshotWindow d = true ↔ (((d.hour : ℤ) - 10 + 24) % 2 = 0 ∧ d.minute < 5)) ∧
    (isSnapshotWindow d = true ↔ (d.hour % 2 = 0 ∧ d.minute < 5)) := by
  simp only [isSnapshotWindow, Bool.and_eq_true, beq_iff_eq, decide_eq_true_eq]
  constructor <;> constructor <;> (rintro ⟨h1, h2⟩; constructor <;> omega)

/-- C4: any append to the snapshot log yields a log of length at most 1000;
the result is a suffix of push-order (original relative order, oldest dropped
first); appends under the cap keep everything; at or above the cap exactly the
most recent 1000 survive. -/
theorem append_capped_spec (log : List Snapshot) (snap : Snapshot) :
    (appendCapped log snap).length ≤ 1000 ∧
    appendCapped log snap <:+ log ++ [snap] ∧
    ((log ++ [snap]).length ≤ 1000 → appendCapped log snap = log ++ [snap]) ∧
    (1000 ≤ (log ++ [snap]).length → (appendCapped log snap).length = 1000) ∧
    appendCapped log snap = (log ++ [snap]).drop ((log ++ [snap]).length - 1000) := by
  unfold appendCapped
  dsimp only
  by_cases h : (log ++ [snap]).length > 1000
  · rw [if_pos h]
    refine ⟨?_, List.drop_suffix _ _, fun hle => by omega, fun _ => ?_, rfl⟩
    · rw [List.length_drop]; omega
    · rw [List.length_drop]; omega
  · rw [if_neg h]
    have h0 : (log ++ [snap]).length - 1000 = 0 := by omega
    refine ⟨by omega, List.suffix_refl _, fun _ => rfl, fun hge => by omega, ?_⟩
    rw [h0, List.drop_zero]

/-- C4 witness: appending to a log already at the cap keeps length 1000 and
drops the oldest entry. -/
theorem append_capped_spec_w :
    (appendCapped (List.replicate 1000 (Snapshot.mk "b" ⟨2025, 9, 29, 12, 2⟩ []))
        (Snapshot.mk "b2" ⟨2025, 9, 29, 14, 2⟩ [])).length = 1000 :=
  (append_capped_spec (List.replicate 1000 (Snapshot.mk "b" ⟨2025, 9, 29, 12, 2⟩ []))
      (Snapshot.mk "b2" ⟨2025, 9, 29, 14, 2⟩ [])).2.2.2.1
    (by rw [List.length_append, List.length_replicate]; omega)

/-- C8: a scheduler tick with an empty rows list does nothing: no snapshot is
constructed or handed to persistence, no action is performed, and the session
state (remembered bucket, log) is left unchanged. -/
theorem empty_rows_tick_noop (now : JsDate) (lb : Option String)
    (log fired : List Snapshot) (f : Bool) :
    maybeSnapshot [] now lb = (lb, none) ∧
    maybeSnapshotTrace [] now lb = [] ∧
    sessionStep ⟨[], lb, log, fired⟩ (.tick now f) = ⟨[], lb, log, fired⟩ := by
  exact ⟨rfl, rfl, rfl⟩

/-- A sample normalised row, used to instantiate theorems at concrete inputs. -/
def sampleRow : Row :=
  ⟨"Prover 1", "0x6220892679110898abd78847d6f0a639e3408dc7", some 3, 12⟩

/-- A sample eligible instant (12:02 UTC, an even hour, minute < 5). -/
def sampleT1 : JsDate := ⟨2025, 9, 29, 12, 2⟩

/-- A second instant in the same bucket as `sampleT1` (12:04 UTC). -/
def sampleT1b : JsDate := ⟨2025, 9, 29, 12, 4⟩

/-- An eligible instant two hours after `sampleT1` (14:03 UTC). -/
def sampleT2 : JsDate := ⟨2025, 9, 29, 14, 3⟩

/-- C1: with rows available, an eligible tick on a fresh bucket persists
exactly one snapshot and remembers the bucket; a later eligible tick whose
computed bucket equals the remembered one does nothing; an eligible tick on a
distinct bucket (e.g. two hours later) persists exactly one further snapshot,
and the two snapshots are distinct (their bucket fields differ). -/
theorem snapshot_once_per_bucket
    (rows1 rows1b rows2 : List Row) (t1 t1b t2 : JsDate) (lb0 : Option String)
    (h1 : rows1 ≠ []) (h1b : rows1b ≠ []) (h2 : rows2 ≠ [])
    (w1 : isSnapshotWindow t1 = true) (w1b : isSnapshotWindow t1b = true)
    (w2 : isSnapshotWindow t2 = true)
    (same : snapshotBucketKey t1b = snapshotBucketKey t1)
    (diff : snapshotBucketKey t2 ≠ snapshotBucketKey t1)
    (fresh : lb0 ≠ some (snapshotBucketKey t1)) :
    ∃ snap1 snap2,
      maybeSnapshot rows1 t1 lb0 = (some (snapshotBucketKey t1), some snap1) ∧
      maybeSnapshot rows1b t1b (some (snapshotBucketKey t1)) =
        (some (snapshotBucketKey t1), none) ∧
      maybeSnapshot rows2 t2 (some (snapshotBucketKey t1)) =
        (some (snapshotBucketKey t2), some snap2) ∧
      snap1.bucket = snapshotBucketKey t1 ∧ snap2.bucket = snapshotBucketKey t2 ∧
      snap1.bucket ≠ snap2.bucket := by
  have h1e : rows1.isEmpty = false := by
    cases rows1 with
    | nil => exact absurd rfl h1
    | cons a l => rfl
  have h1be : rows1b.isEmpty = false := by
    cases rows1b with
    | nil => exact absurd rfl h1b
    | cons a l => rfl
  have h2e : rows2.isEmpty = false := by
    cases rows2 with
    | nil => exact absurd rfl h2
    | cons a l => rfl
  refine ⟨mkPayload rows1 t1 (snapshotBucketKey t1),
          mkPayload rows2 t2 (snapshotBucketKey t2), ?_, ?_, ?_, rfl, rfl, ?_⟩
  · simp [maybeSnapshot, h1e, w1, fresh]
  · simp [maybeSnapshot, h1be, w1b, same]
  · simp [maybeSnapshot, h2e, w2, Ne.symm diff]
  · exact fun h => diff h.symm

/-- C1 witness: a concrete session — eligible ticks at 12:02, 12:04 and 14:03
UTC on 2025-10-29 — persists exactly one snapshot for the 12:00 bucket and one
for the 14:00 bucket. -/
theorem snapshot_once_per_bucket_w :
    ∃ snap1 snap2,
      maybeSnapshot [sampleRow] sampleT1 none =
        (some (snapshotBucketKey sampleT1), some snap1) ∧
      maybeSnapshot [sampleRow] sampleT1b (some (snapshotBucketKey sampleT1)) =
        (some (snapshotBucketKey sampleT1), none) ∧
      maybeSnapshot [sampleRow] sampleT2 (some (snapshotBucketKey sampleT1)) =
        (some (snapshotBucketKey sampleT2), some snap2) ∧
      snap1.bucket = snapshotBucketKey sampleT1 ∧
      snap2.bucket = snapshotBucketKey sampleT2 ∧
      snap1.bucket ≠ snap2.bucket :=
  snapshot_once_per_bucket [sampleRow] [sampleRow] [sampleRow] sampleT1 sampleT1b sampleT2 none
    (by decide) (by decide) (by decide) (by decide) (by decide) (by decide)
    (by decide) (by decide) (by decide)

/-- C3: once a tick is eligible and its bucket is new, the remembered bucket
is updated *before* persistence is invoked (the tick's action trace is
set-bucket then call-persist); the update happens whatever the storage or sink
health is; a failing store leaves the log unchanged and, persistence being a
total function, nothing is raised; subsequent ticks keep running — the same
bucket is not retried, and a later fresh eligible bucket still fires. -/
theorem scheduler_update_precedes_persist
    (rows : List Row) (now : JsDate) (lb : Option String)
    (hr : rows ≠ []) (hw : isSnapshotWindow now = true)
    (hf : lb ≠ some (snapshotBucketKey now)) :
    maybeSnapshotTrace rows now lb =
      [SchedEvent.setBucket (snapshotBucketKey now),
       SchedEvent.callPersist (mkPayload rows now (snapshotBucketKey now))] ∧
    (maybeSnapshot rows now lb).1 = some (snapshotBucketKey now) ∧
    (∀ log fired f,
      (sessionStep ⟨rows, lb, log, fired⟩ (.tick now f)).lastBucket
        = some (snapshotBucketKey now)) ∧
    (∀ log fired,
      (sessionStep ⟨rows, lb, log, fired⟩ (.tick now true)).log = log) ∧
    (∀ snap log ep, persistSnapshot snap ⟨true, log⟩ ep false = (⟨true, log⟩, [])) ∧
    (∀ rows2 log fired f,
      sessionStep ⟨rows2, some (snapshotBucketKey now), log, fired⟩ (.tick now f)
        = ⟨rows2, some (snapshotBucketKey now), log, fired⟩) ∧
    (∀ rows2 t2, rows2 ≠ [] → isSnapshotWindow t2 = true →
      snapshotBucketKey t2 ≠ snapshotBucketKey now →
      (maybeSnapshot rows2 t2 (some (snapshotBucketKey now))).2
        = some (mkPayload rows2 t2 (snapshotBucketKey t2))) := by
  have hre : rows.isEmpty = false := by
    cases rows with
    | nil => exact absurd rfl hr
    | cons a l => rfl
  have hms : maybeSnapshot rows now lb =
      (some (snapshotBucketKey now), some (mkPayload rows now (snapshotBucketKey now))) := by
    simp only [maybeSnapshot, hre, Bool.false_eq_true, if_false, hw, Bool.not_true]
    simp [hf]
  refine ⟨?_, ?_, ?_, ?_, ?_, ?_, ?_⟩
  · simp only [maybeSnapshotTrace, hre, Bool.false_eq_true, if_false, hw, Bool.not_true]
    simp [hf]
  · rw [hms]
  · intro log fired f
    simp [sessionStep, hms]
  · intro log fired
    simp [sessionStep, hms]
  · intro snap log ep
    cases ep <;> rfl
  · intro rows2 log fired f
    by_cases h2 : rows2.isEmpty = true
    · have : maybeSnapshot rows2 now (some (snapshotBucketKey now)) =
          (some (snapshotBucketKey now), none) := by
        simp [maybeSnapshot, h2]
      simp [sessionStep, this]
    · have h2f : rows2.isEmpty = false := by
        cases h : rows2.isEmpty
        · rfl
        · exact absurd h h2
      have : maybeSnapshot rows2 now (some (snapshotBucketKey now)) =
          (some (snapshotBucketKey now), none) := by
        simp [maybeSnapshot, h2f, hw]
      simp [sessionStep, this]
  · intro rows2 t2 hr2 hw2 hd2
    have h2e : rows2.isEmpty = false := by
      cases rows2 with
      | nil => exact absurd rfl hr2
      | cons a l => rfl
    simp [maybeSnapshot, h2e, hw2, Ne.symm hd2]

/-- C3 witness: at 12:02 UTC with rows available, a fresh bucket and a
*failing* store, the remembered bucket is still updated and the stored log is
untouched. -/
theorem scheduler_update_precedes_persist_w :
    (sessionStep ⟨[sampleRow], none, [], []⟩ (.tick sampleT1 true)).lastBucket
        = some (snapshotBucketKey sampleT1) ∧
    (sessionStep ⟨[sampleRow], none, [], []⟩ (.tick sampleT1 true)).log = [] :=
  ⟨(scheduler_update_precedes_persist [sampleRow] sampleT1 none
      (by decide) (by decide) (by decide)).2.2.1 [] [] true,
   (scheduler_update_precedes_persist [sampleRow] sampleT1 none
      (by decide) (by decide) (by decide)).2.2.2.1 [] []⟩

/-- Dropping leading whitespace does nothing to a whitespace-free list. -/
theorem dropWhile_ws_eq_self {l : List Char} (h : ∀ c ∈ l, c.isWhitespace = false) :
    l.dropWhile Char.isWhitespace = l := by
  cases l with
  | nil => rfl
  | cons c t =>
    rw [List.dropWhile_cons, if_neg]
    simp [h c (List.mem_cons_self c t)]

/-- Trimming does nothing to a whitespace-free character list. -/
theorem jsTrimList_eq_self {l : List Char} (h : ∀ c ∈ l, c.isWhitespace = false) :
    jsTrimList l = l := by
  unfold jsTrimList
  rw [dropWhile_ws_eq_self h, dropWhile_ws_eq_self, List.reverse_reverse]
  intro c hc
  exact h c (List.mem_reverse.mp hc)

/-- Applying `parseCycles` to a string whose trimmed form does not start with a digit
or dot (the regex `^([\d.]+)` fails to match) is 0. -/
theorem parseCycles_no_match {s : String}
    (hhead : ∀ c ∈ (jsTrimList s.data).take 1, numericChar c = false) :
    parseCycles (some s) = 0 := by
  have hm : (jsTrimList s.data).takeWhile numericChar = [] := by
    cases h : jsTrimList s.data with
    | nil => rfl
    | cons c t =>
      rw [h] at hhead
      rw [List.takeWhile_cons,
        if_neg (by simp [hhead c (by simp [List.take_cons])])]
  simp only [parseCycles]
  rw [hm]
  rfl

/-- The function `parseCycles` reads exactly the leading `[\d.]+` substring: for a
non-empty numeric-character prefix followed by a rest that starts with a
non-numeric character (whitespace-free on both sides, so that `trim` is the
identity), the result is the `parseFloat` value of the prefix, with a `NaN`
parse collapsed to 0 by the `Number.isFinite` guard. -/
theorem parseCycles_leading {dsx rest : List Char} (hne : dsx ≠ [])
    (hnum : ∀ c ∈ dsx, numericChar c = true)
    (hws1 : ∀ c ∈ dsx, c.isWhitespace = false)
    (hws2 : ∀ c ∈ rest, c.isWhitespace = false)
    (hhead : ∀ c ∈ rest.take 1, numericChar c = false) :
    parseCycles (some ⟨dsx ++ rest⟩) = (parseFloatDigitsDots dsx).getD 0 := by
  have hdata : (String.mk (dsx ++ rest)).data = dsx ++ rest := rfl
  have htrim : jsTrimList (dsx ++ rest) = dsx ++ rest := by
    apply jsTrimList_eq_self
    intro c hc
    rcases List.mem_append.mp hc with h | h
    · exact hws1 c h
    · exact hws2 c h
  have hrest : rest.takeWhile numericChar = [] := by
    cases rest with
    | nil => rfl
    | cons c t =>
      rw [List.takeWhile_cons,
        if_neg (by simp [hhead c (by simp [List.take_cons])])]
  simp only [parseCycles, hdata]
  rw [htrim, List.takeWhile_append_of_pos hnum, hrest, List.append_nil,
    if_neg (by simp [List.isEmpty_iff, hne])]
  cases parseFloatDigitsDots dsx <;> rfl

/-- Applying `parseFloat` to a non-empty digit run gives its decimal value. -/
theorem parseFloatDigitsDots_int {ip : List Char} (hne : ip ≠ [])
    (hdig : ∀ c ∈ ip, c.isDigit = true) :
    parseFloatDigitsDots ip = some (decNatVal ip : ℚ) := by
  unfold parseFloatDigitsDots
  rw [List.takeWhile_eq_self_iff.mpr (by simpa using hdig),
    List.dropWhile_eq_nil_iff.mpr (by simpa using hdig)]
  simp [List.isEmpty_iff, hne]

/-- Applying `parseFloat` to `digits.digits` (not both parts empty) gives the decimal
value of the integer part plus the fractional part scaled by its length. -/
theorem parseFloatDigitsDots_frac {ip fp : List Char}
    (hip : ∀ c ∈ ip, c.isDigit = true) (hfp : ∀ c ∈ fp, c.isDigit = true)
    (hne : ¬(ip = [] ∧ fp = [])) :
    parseFloatDigitsDots (ip ++ '.' :: fp) =
      some ((decNatVal ip : ℚ) + (decNatVal fp : ℚ) / (10 : ℚ) ^ fp.length) := by
  unfold parseFloatDigitsDots
  rw [List.takeWhile_append_of_pos (by simpa using hip),
    List.dropWhile_append_of_pos (by simpa using hip)]
  have ht : List.takeWhile Char.isDigit ('.' :: fp) = [] := by
    rw [List.takeWhile_cons, if_neg (by decide)]
  have hd : List.dropWhile Char.isDigit ('.' :: fp) = '.' :: fp := by
    rw [List.dropWhile_cons, if_neg (by decide)]
  rw [ht, hd, List.append_nil]
  show (if (ip.isEmpty && (List.takeWhile Char.isDigit fp).isEmpty) = true then none
        else some ((decNatVal ip : ℚ) + (decNatVal (List.takeWhile Char.isDigit fp) : ℚ) /
          (10 : ℚ) ^ (List.takeWhile Char.isDigit fp).length)) =
      some ((decNatVal ip : ℚ) + (decNatVal fp : ℚ) / (10 : ℚ) ^ fp.length)
  rw [List.takeWhile_eq_self_iff.mpr (show ∀ c ∈ fp, Char.isDigit c from by simpa using hfp)]
  have hcond : ¬((ip.isEmpty && fp.isEmpty) = true) := by
    simp only [Bool.and_eq_true, List.isEmpty_iff]
    exact fun h => hne ⟨h.1, h.2⟩
  rw [if_neg hcond]

/-- C7 counterexample: the claim says malformed `orders_taken` values are
treated as zero, but `Number("abc" || 0)` evaluates `Number("abc")`, which is
`NaN` — not `0`. -/
theorem orders_taken_nan_cex :
    ordersTakenField (.jstr "abc") = none ∧ ordersTakenField (.jstr "abc") ≠ some 0 := by
  have h : ordersTakenField (.jstr "abc") = none := rfl
  exact ⟨h, by rw [h]; exact fun hc => Option.noConfusion hc⟩

/-- C7 amended: `parseCycles` never raises and returns the `parseFloat` value
of the leading `[\d.]+` substring — `0` for `null`/`undefined`, for strings
with no leading numeric character, and for a `NaN` parse; a pure digit run
evaluates to its decimal value and `digits.digits` to the corresponding
decimal fraction (so `parseCycles("12.5K") = 12.5`).  The `orders_taken`
field goes through `Number(value || 0)` instead: `0` for `null`, `undefined`,
`""` or `0`, the number itself for numeric values, the parsed value for
non-empty strings — which is `NaN`, not `0`, when such a string is
non-numeric (e.g. `"abc"`). -/
theorem parse_failure_semantics :
    parseCycles none = 0 ∧
    parseCycles (some "12.5K") = 25 / 2 ∧
    parseCycles (some "abc") = 0 ∧
    parseCycles (some "...") = 0 ∧
    (∀ s : String,
      (∀ c ∈ (jsTrimList s.data).take 1, numericChar c = false) →
      parseCycles (some s) = 0) ∧
    (∀ dsx rest : List Char, dsx ≠ [] →
      (∀ c ∈ dsx, numericChar c = true) →
      (∀ c ∈ dsx, c.isWhitespace = false) →
      (∀ c ∈ rest, c.isWhitespace = false) →
      (∀ c ∈ rest.take 1, numericChar c = false) →
      parseCycles (some ⟨dsx ++ rest⟩) = (parseFloatDigitsDots dsx).getD 0) ∧
    (∀ ip : List Char, ip ≠ [] → (∀ c ∈ ip, c.isDigit = true) →
      parseFloatDigitsDots ip = some (decNatVal ip : ℚ)) ∧
    (∀ ip fp : List Char, (∀ c ∈ ip, c.isDigit = true) → (∀ c ∈ fp, c.isDigit = true) →
      ¬(ip = [] ∧ fp = []) →
      parseFloatDigitsDots (ip ++ '.' :: fp) =
        some ((decNatVal ip : ℚ) + (decNatVal fp : ℚ) / (10 : ℚ) ^ fp.length)) ∧
    ordersTakenField .jnull = some 0 ∧
    ordersTakenField .jundef = some 0 ∧
    ordersTakenField (.jstr "") = some 0 ∧
    (∀ q : ℚ, ordersTakenField (.jnum q) = some q) ∧
    (∀ s : String, s ≠ "" → ordersTakenField (.jstr s) = strToNumber s) ∧
    ordersTakenField (.jstr "abc") = none := by
  refine ⟨rfl, ?_, rfl, rfl,
    fun s hhead => parseCycles_no_match hhead,
    fun dsx rest hne hnum hws1 hws2 hhead =>
      parseCycles_leading hne hnum hws1 hws2 hhead,
    fun ip hne hdig => parseFloatDigitsDots_int hne hdig,
    fun ip fp hip hfp hne => parseFloatDigitsDots_frac hip hfp hne,
    rfl, rfl, rfl, ?_, ?_, rfl⟩
  · have h1 : parseCycles (some "12.5K") =
        (parseFloatDigitsDots (['1', '2'] ++ '.' :: ['5'])).getD 0 :=
      @parseCycles_leading ['1', '2', '.', '5'] ['K']
        (by decide) (by decide) (by decide) (by decide) (by decide)
    rw [h1, parseFloatDigitsDots_frac (by decide) (by decide) (by decide)]
    show (decNatVal ['1', '2'] : ℚ) + (decNatVal ['5'] : ℚ) / (10 : ℚ) ^
      (['5'] : List Char).length = 25 / 2
    norm_num [decNatVal, show '1'.toNat - 48 = 1 from rfl,
      show '2'.toNat - 48 = 2 from rfl, show '5'.toNat - 48 = 5 from rfl]
  · intro q
    unfold ordersTakenField JsVal.falsy
    by_cases h : q = 0
    · subst h; rfl
    · rw [if_neg (by simp [h])]; rfl
  · intro s hs
    unfold ordersTakenField JsVal.falsy
    rw [if_neg (by simp [hs])]
    rfl

/-- C7 amended witness: concrete instances — `"12.5"` followed by `"K"`
parses to its leading decimal value 12.5, and a numeric `orders_taken` string
keeps its value. -/
theorem parse_failure_semantics_w :
    parseCycles (some ⟨['1', '2', '.', '5'] ++ ['K']⟩) =
      (parseFloatDigitsDots ['1', '2', '.', '5']).getD 0 ∧
    parseFloatDigitsDots ['1', '2'] = some (decNatVal ['1', '2'] : ℚ) ∧
    ordersTakenField (.jstr "17") = strToNumber "17" :=
  ⟨(parse_failure_semantics.2.2.2.2.2.1) ['1', '2', '.', '5'] ['K'] (by decide) (by decide)
      (by decide) (by decide) (by decide),
   (parse_failure_semantics.2.2.2.2.2.2.1) ['1', '2'] (by decide) (by decide),
   (parse_failure_semantics.2.2.2.2.2.2.2.2.2.2.2.2.1) "17" (by decide)⟩

/-- A fired snapshot's `provers` list is exactly the rows the scheduler saw,
and those rows were non-empty. -/
theorem maybeSnapshot_fired {rows : List Row} {now : JsDate} {lb lb2 : Option String}
    {snap : Snapshot} (h : maybeSnapshot rows now lb = (lb2, some snap)) :
    snap.provers = rows ∧ rows ≠ [] := by
  unfold maybeSnapshot at h
  by_cases h1 : rows.isEmpty = true
  · rw [if_pos h1] at h
    simp at h
  · rw [if_neg h1] at h
    cases hw : isSnapshotWindow now with
    | false => rw [hw] at h; simp at h
    | true =>
      rw [hw] at h
      simp only [Bool.not_true, Bool.false_eq_true, if_false] at h
      by_cases h3 : (lb == some (snapshotBucketKey now)) = true
      · rw [if_pos h3] at h
        simp at h
      · rw [if_neg h3] at h
        have hsnap : snap = mkPayload rows now (snapshotBucketKey now) := by
          have := congrArg Prod.snd h
          simpa using this.symm
        subst hsnap
        refine ⟨?_, by simpa [List.isEmpty_iff] using h1⟩
        show rows.map (fun r =>
          ({ label := r.label, addr := r.addr, orders_taken := r.orders_taken,
             cycles_proved := r.cycles_proved } : Row)) = rows
        have : (fun r : Row =>
            ({ label := r.label, addr := r.addr, orders_taken := r.orders_taken,
               cycles_proved := r.cycles_proved } : Row)) = fun r : Row => r := rfl
        rw [this]
        simp

/-- After any run, the current rows are either still the initial empty list or
a normalised table, and every snapshot fired during the run carries a
normalised table. -/
theorem session_invariant (evs : List SessionEvent) (s : Session)
    (hrows : s.rows = [] ∨ ∃ d, s.rows = mkTable d)
    (hfired : ∀ snap ∈ s.fired, ∃ d, snap.provers = mkTable d) :
    ((evs.foldl sessionStep s).rows = [] ∨ ∃ d, (evs.foldl sessionStep s).rows = mkTable d) ∧
    (∀ snap ∈ (evs.foldl sessionStep s).fired, ∃ d, snap.provers = mkTable d) := by
  induction evs generalizing s with
  | nil => exact ⟨hrows, hfired⟩
  | cons e rest ih =>
    rw [List.foldl_cons]
    cases e with
    | fetchOk d =>
      exact ih _ (Or.inr ⟨d, rfl⟩) hfired
    | fetchErr =>
      exact ih _ hrows hfired
    | tick now failing =>
      cases h : maybeSnapshot s.rows now s.lastBucket with
      | mk lb2 osnap =>
        cases osnap with
        | none =>
          apply ih
          · simpa [sessionStep, h] using hrows
          · simpa [sessionStep, h] using hfired
        | some snap =>
          obtain ⟨hpro, hne⟩ := maybeSnapshot_fired h
          apply ih
          · simpa [sessionStep, h] using hrows
          · intro snap2 hmem
            simp only [sessionStep, h, List.mem_append, List.mem_singleton] at hmem
            rcases hmem with hmem | rfl
            · exact hfired snap2 hmem
            · rcases hrows with hnil | ⟨d, hd⟩
              · exact absurd hnil hne
              · exact ⟨d, hpro.trans hd⟩

/-- C9: every snapshot a session ever hands to persistence has a `provers`
sequence of exactly three entries — Prover 1, Prover 2, Prover 3 with their
hard-coded addresses, in that order — and a prover absent from the fetched
response appears with `orders_taken = 0` and `cycles_proved = 0` rather than
being omitted. -/
theorem snapshot_provers_shape (log0 : List Snapshot) (evs : List SessionEvent)
    (snap : Snapshot) (h : snap ∈ (runSession log0 evs).fired) :
    snap.provers.length = 3 ∧
    snap.provers.map Row.label = ["Prover 1", "Prover 2", "Prover 3"] ∧
    snap.provers.map Row.addr =
      ["0x6220892679110898abd78847d6f0a639e3408dc7",
       "0x34a2df023b535c1bd79a791b259adea947f603e3",
       "0x11973257c9210d852084f7b97f672080c1dbbb53"] ∧
    ∃ d, snap.provers = mkTable d ∧
      ∀ p ∈ PROVERS, byAddrFind d p.addr.toLower = none →
        (⟨p.label, p.addr, some 0, 0⟩ : Row) ∈ snap.provers := by
  obtain ⟨d, hd⟩ :=
    (session_invariant evs (initSession log0) (Or.inl rfl) (by intro _ hs; cases hs)).2 snap h
  refine ⟨by rw [hd]; rfl, by rw [hd]; rfl, by rw [hd]; rfl, d, hd, ?_⟩
  intro p hp hnone
  rw [hd]
  refine List.mem_map.mpr ⟨p, hp, ?_⟩
  simp [hnone]

/-- C9 witness: a concrete run — a successful fetch returning no rows, then an
eligible tick — fires one snapshot listing the three provers with zero
metrics. -/
theorem snapshot_provers_shape_w :
    (Snapshot.mk (snapshotBucketKey sampleT1) sampleT1
        [⟨"Prover 1", "0x6220892679110898abd78847d6f0a639e3408dc7", some 0, 0⟩,
         ⟨"Prover 2", "0x34a2df023b535c1bd79a791b259adea947f603e3", some 0, 0⟩,
         ⟨"Prover 3", "0x11973257c9210d852084f7b97f672080c1dbbb53", some 0, 0⟩]) ∈
      (runSession [] [.fetchOk [], .tick sampleT1 false]).fired ∧
    (Snapshot.mk (snapshotBucketKey sampleT1) sampleT1
        [⟨"Prover 1", "0x6220892679110898abd78847d6f0a639e3408dc7", some 0, 0⟩,
         ⟨"Prover 2", "0x34a2df023b535c1bd79a791b259adea947f603e3", some 0, 0⟩,
         ⟨"Prover 3", "0x11973257c9210d852084f7b97f672080c1dbbb53", some 0, 0⟩]).provers.map
      Row.label = ["Prover 1", "Prover 2", "Prover 3"] :=
  ⟨by decide,
   (snapshot_provers_shape [] [.fetchOk [], .tick sampleT1 false] _ (by decide)).2.1⟩

theorem decNatVal_append_singleton (l : List Char) (c : Char) :
    decNatVal (l ++ [c]) = decNatVal l * 10 + (c.toNat - 48) := by
  unfold decNatVal
  rw [List.foldl_append]
  rfl

theorem natDecDigitsAux_val : ∀ fuel n : ℕ, n < 10 ^ fuel →
    decNatVal (natDecDigitsAux fuel n) = n := by
  intro fuel
  induction fuel with
  | zero =>
    intro n hn
    have h0 : n = 0 := by simpa using hn
    subst h0
    rfl
  | succ f ih =>
    intro n hn
    show decNatVal (if n < 10 then [Nat.digitChar n]
      else natDecDigitsAux f (n / 10) ++ [Nat.digitChar (n % 10)]) = n
    by_cases h10 : n < 10
    · rw [if_pos h10]
      have h : ∀ m, m < 10 → decNatVal [Nat.digitChar m] = m := by decide
      exact h n h10
    · rw [if_neg h10, decNatVal_append_singleton]
      have hdiv : n / 10 < 10 ^ f := by
        rw [Nat.div_lt_iff_lt_mul (by norm_num)]
        calc n < 10 ^ (f + 1) := hn
        _ = 10 ^ f * 10 := pow_succ 10 f
      rw [ih (n / 10) hdiv]
      have hdc : ∀ m, m < 10 → (Nat.digitChar m).toNat - 48 = m := by decide
      rw [hdc _ (Nat.mod_lt n (by norm_num))]
      omega

theorem natDecDigits_val (n : ℕ) : decNatVal (natDecDigits n) = n := by
  apply natDecDigitsAux_val
  calc n < 10 ^ n := Nat.lt_pow_self (by norm_num) n
  _ ≤ 10 ^ (n + 1) := Nat.pow_le_pow_right (by norm_num) (Nat.le_succ n)

theorem natDecDigitsAux_digits : ∀ fuel n : ℕ, n < 10 ^ fuel →
    ∀ c ∈ natDecDigitsAux fuel n, c.isDigit = true := by
  intro fuel
  induction fuel with
  | zero =>
    intro n hn c hc
    have h0 : n = 0 := by simpa using hn
    subst h0
    cases hc
  | succ f ih =>
    intro n hn c hc
    rw [show natDecDigitsAux (f + 1) n = if n < 10 then [Nat.digitChar n]
      else natDecDigitsAux f (n / 10) ++ [Nat.digitChar (n % 10)] from rfl] at hc
    have hdig : ∀ m, m < 10 → (Nat.digitChar m).isDigit = true := by decide
    by_cases h10 : n < 10
    · rw [if_pos h10] at hc
      rw [List.mem_singleton.mp hc]
      exact hdig n h10
    · rw [if_neg h10] at hc
      rcases List.mem_append.mp hc with h | h
      · have hdiv : n / 10 < 10 ^ f := by
          rw [Nat.div_lt_iff_lt_mul (by norm_num)]
          calc n < 10 ^ (f + 1) := hn
          _ = 10 ^ f * 10 := pow_succ 10 f
        exact ih (n / 10) hdiv c h
      · rw [List.mem_singleton.mp h]
        exact hdig _ (Nat.mod_lt n (by norm_num))

theorem natDecDigits_digits (n : ℕ) : ∀ c ∈ natDecDigits n, c.isDigit = true := by
  apply natDecDigitsAux_digits
  calc n < 10 ^ n := Nat.lt_pow_self (by norm_num) n
  _ ≤ 10 ^ (n + 1) := Nat.pow_le_pow_right (by norm_num) (Nat.le_succ n)

theorem natDecDigits_len_le_two : ∀ n, n < 100 → (natDecDigits n).length ≤ 2 := by decide

theorem natDecDigitsAux_length : ∀ fuel k n : ℕ, n < 10 ^ fuel → 10 ^ k ≤ n →
    n < 10 ^ (k + 1) → (natDecDigitsAux fuel n).length = k + 1 := by
  intro fuel
  induction fuel with
  | zero =>
    intro k n h1 h2 h3
    have := pow_pos (show (0 : ℕ) < 10 by norm_num) k
    omega
  | succ f ih =>
    intro k n h1 h2 h3
    show (if n < 10 then [Nat.digitChar n]
      else natDecDigitsAux f (n / 10) ++ [Nat.digitChar (n % 10)]).length = k + 1
    by_cases h10 : n < 10
    · rw [if_pos h10]
      cases k with
      | zero => rfl
      | succ k2 =>
        have h4 : (10 : ℕ) ≤ 10 ^ (k2 + 1) := by
          calc (10 : ℕ) = 10 ^ 1 := (pow_one 10).symm
          _ ≤ 10 ^ (k2 + 1) := Nat.pow_le_pow_right (by norm_num) (by omega)
        omega
    · rw [if_neg h10, List.length_append]
      cases k with
      | zero =>
        have : n < 10 := by simpa using h3
        omega
      | succ k2 =>
        have hdiv1 : n / 10 < 10 ^ f := by
          rw [Nat.div_lt_iff_lt_mul (by norm_num)]
          calc n < 10 ^ (f + 1) := h1
          _ = 10 ^ f * 10 := pow_succ 10 f
        have hdiv2 : 10 ^ k2 ≤ n / 10 := by
          rw [Nat.le_div_iff_mul_le (by norm_num)]
          calc 10 ^ k2 * 10 = 10 ^ (k2 + 1) := (pow_succ 10 k2).symm
          _ ≤ n := h2
        have hdiv3 : n / 10 < 10 ^ (k2 + 1) := by
          rw [Nat.div_lt_iff_lt_mul (by norm_num)]
          calc n < 10 ^ (k2 + 1 + 1) := h3
          _ = 10 ^ (k2 + 1) * 10 := pow_succ 10 (k2 + 1)
        rw [ih k2 (n / 10) hdiv1 hdiv2 hdiv3]
        rfl

theorem natDecDigits_len_four {n : ℕ} (h1 : 1000 ≤ n) (h2 : n < 10000) :
    (natDecDigits n).length = 4 := by
  apply natDecDigitsAux_length (n + 1) 3 n ?_ (by norm_num; omega) (by norm_num; omega)
  calc n < 10 ^ n := Nat.lt_pow_self (by norm_num) n
  _ ≤ 10 ^ (n + 1) := Nat.pow_le_pow_right (by norm_num) (Nat.le_succ n)

theorem decNatVal_replicate_zero (k : ℕ) (l : List Char) :
    decNatVal (List.replicate k '0' ++ l) = decNatVal l := by
  unfold decNatVal
  rw [List.foldl_append]
  have h : ∀ k2 : ℕ, List.foldl (fun acc c => acc * 10 + (c.toNat - 48)) 0
      (List.replicate k2 '0') = 0 := by
    intro k2
    induction k2 with
    | zero => rfl
    | succ k3 ih =>
      rw [List.replicate_succ, List.foldl_cons]
      exact ih
  rw [h]

theorem pad2Digits_len {n : ℕ} (h : n < 100) : (pad2Digits n).length = 2 := by
  unfold pad2Digits
  rw [List.length_append, List.length_replicate]
  have h2 := natDecDigits_len_le_two n h
  omega

theorem pad2Digits_val (n : ℕ) : decNatVal (pad2Digits n) = n := by
  unfold pad2Digits
  rw [decNatVal_replicate_zero]
  exact natDecDigits_val n

theorem pad2Digits_digits (n : ℕ) : ∀ c ∈ pad2Digits n, c.isDigit = true := by
  intro c hc
  rcases List.mem_append.mp hc with h | h
  · rw [(List.eq_of_mem_replicate h : c = '0')]
    rfl
  · exact natDecDigits_digits n c h

theorem natDecStr_data (n : ℕ) : (natDecStr n).data = natDecDigits n := rfl

theorem pad2_data (n : ℕ) : (pad2 n).data = pad2Digits n := rfl

/-- The character content of a bucket key: year digits, a dash, the padded
month, a dash, the padded day, a `T`, the padded hour, and `:00Z`. -/
theorem bucketKey_data (d : JsDate) :
    (snapshotBucketKey d).data =
      natDecDigits d.year ++ '-' :: (pad2Digits (d.month0 + 1) ++
        '-' :: (pad2Digits d.day ++ 'T' :: (pad2Digits d.hour ++ [':', '0', '0', 'Z']))) := by
  have hdash : ("-" : String).data = ['-'] := rfl
  have ht : ("T" : String).data = ['T'] := rfl
  have hz : (":00Z" : String).data = [':', '0', '0', 'Z'] := rfl
  simp only [snapshotBucketKey, String.data_append, natDecStr_data, pad2_data,
    hdash, ht, hz, List.append_assoc, List.singleton_append, List.cons_append,
    List.nil_append]

/-- Two instants in valid `Date` ranges with equal bucket keys share year,
month, day and hour. -/
theorem bucketKey_inj {d1 d2 : JsDate}
    (hm1 : d1.month0 < 12) (hd1 : d1.day < 100) (hh1 : d1.hour < 24)
    (hm2 : d2.month0 < 12) (hd2 : d2.day < 100) (hh2 : d2.hour < 24)
    (h : snapshotBucketKey d1 = snapshotBucketKey d2) :
    d1.year = d2.year ∧ d1.month0 = d2.month0 ∧ d1.day = d2.day ∧ d1.hour = d2.hour := by
  have hdq := congrArg String.data h
  rw [bucketKey_data, bucketKey_data] at hdq
  have len1 : ('-' :: (pad2Digits (d1.month0 + 1) ++ '-' :: (pad2Digits d1.day ++
      'T' :: (pad2Digits d1.hour ++ [':', '0', '0', 'Z'])))).length =
      ('-' :: (pad2Digits (d2.month0 + 1) ++ '-' :: (pad2Digits d2.day ++
      'T' :: (pad2Digits d2.hour ++ [':', '0', '0', 'Z'])))).length := by
    simp only [List.length_cons, List.length_append,
      pad2Digits_len (show d1.month0 + 1 < 100 by omega),
      pad2Digits_len (show d1.day < 100 from hd1),
      pad2Digits_len (show d1.hour < 100 by omega),
      pad2Digits_len (show d2.month0 + 1 < 100 by omega),
      pad2Digits_len (show d2.day < 100 from hd2),
      pad2Digits_len (show d2.hour < 100 by omega)]
  obtain ⟨hy, hrest⟩ := List.append_inj' hdq len1
  have hyear : d1.year = d2.year := by
    have hv := congrArg decNatVal hy
    rwa [natDecDigits_val, natDecDigits_val] at hv
  have hrest2 := (List.cons.injEq _ _ _ _ ▸ hrest :
    '-' = '-' ∧ pad2Digits (d1.month0 + 1) ++ '-' :: (pad2Digits d1.day ++
      'T' :: (pad2Digits d1.hour ++ [':', '0', '0', 'Z'])) =
    pad2Digits (d2.month0 + 1) ++ '-' :: (pad2Digits d2.day ++
      'T' :: (pad2Digits d2.hour ++ [':', '0', '0', 'Z'])))
  obtain ⟨hmo, hrest3⟩ := List.append_inj hrest2.2
    ((pad2Digits_len (show d1.month0 + 1 < 100 by omega)).trans
      (pad2Digits_len (show d2.month0 + 1 < 100 by omega)).symm)
  have hmonth : d1.month0 = d2.month0 := by
    have hv := congrArg decNatVal hmo
    rw [pad2Digits_val, pad2Digits_val] at hv
    omega
  have hrest4 := (List.cons.injEq _ _ _ _ ▸ hrest3 :
    '-' = '-' ∧ pad2Digits d1.day ++ 'T' :: (pad2Digits d1.hour ++ [':', '0', '0', 'Z']) =
    pad2Digits d2.day ++ 'T' :: (pad2Digits d2.hour ++ [':', '0', '0', 'Z']))
  obtain ⟨hda, hrest5⟩ := List.append_inj hrest4.2
    ((pad2Digits_len hd1).trans (pad2Digits_len hd2).symm)
  have hday : d1.day = d2.day := by
    have hv := congrArg decNatVal hda
    rwa [pad2Digits_val, pad2Digits_val] at hv
  have hrest6 := (List.cons.injEq _ _ _ _ ▸ hrest5 :
    'T' = 'T' ∧ pad2Digits d1.hour ++ [':', '0', '0', 'Z'] =
    pad2Digits d2.hour ++ [':', '0', '0', 'Z'])
  obtain ⟨hho, _⟩ := List.append_inj hrest6.2
    ((pad2Digits_len (show d1.hour < 100 by omega)).trans
      (pad2Digits_len (show d2.hour < 100 by omega)).symm)
  have hhour : d1.hour = d2.hour := by
    have hv := congrArg decNatVal hho
    rwa [pad2Digits_val, pad2Digits_val] at hv
  exact ⟨hyear, hmonth, hday, hhour⟩

/-- C5 counterexample: the year is *not* zero-padded.  At year 999 the key is
the 16-character `999-01-01T10:00Z`, not the 17-character zero-padded
`YYYY-MM-DDTHH:00Z` form `0999-01-01T10:00Z`. -/
theorem bucket_key_year_pad_cex :
    snapshotBucketKey ⟨999, 0, 1, 10, 30⟩ = "999-01-01T10:00Z" ∧
    (snapshotBucketKey ⟨999, 0, 1, 10, 30⟩).length = 16 ∧
    snapshotBucketKey ⟨999, 0, 1, 10, 30⟩ ≠ "0999-01-01T10:00Z" := by decide

/-- C5 amended: `snapshotBucketKey` renders the year bare (so exactly four
digits whenever `1000 ≤ year ≤ 9999`, the range this system runs in) followed
by `-MM-DDTHH:00Z` with month, day and hour zero-padded to two digits, each
block decoding to its field; any two instants in the same UTC hour yield an
identical key, and any two instants in different UTC hours — including across
a day rollover — yield different keys. -/
theorem bucket_key_spec (d1 d2 : JsDate)
    (hm1 : d1.month0 < 12) (hd1 : d1.day < 100) (hh1 : d1.hour < 24)
    (hm2 : d2.month0 < 12) (hd2 : d2.day < 100) (hh2 : d2.hour < 24) :
    (∃ ys ms ds hs : List Char,
      (snapshotBucketKey d1).data =
        ys ++ '-' :: (ms ++ '-' :: (ds ++ 'T' :: (hs ++ [':', '0', '0', 'Z']))) ∧
      (∀ c ∈ ys, c.isDigit = true) ∧ (∀ c ∈ ms, c.isDigit = true) ∧
      (∀ c ∈ ds, c.isDigit = true) ∧ (∀ c ∈ hs, c.isDigit = true) ∧
      ms.length = 2 ∧ ds.length = 2 ∧ hs.length = 2 ∧
      (1000 ≤ d1.year → d1.year < 10000 → ys.length = 4) ∧
      decNatVal ys = d1.year ∧ decNatVal ms = d1.month0 + 1 ∧
      decNatVal ds = d1.day ∧ decNatVal hs = d1.hour) ∧
    (d1.year = d2.year → d1.month0 = d2.month0 → d1.day = d2.day → d1.hour = d2.hour →
      snapshotBucketKey d1 = snapshotBucketKey d2) ∧
    (snapshotBucketKey d1 = snapshotBucketKey d2 →
      d1.year = d2.year ∧ d1.month0 = d2.month0 ∧ d1.day = d2.day ∧ d1.hour = d2.hour) := by
  refine ⟨⟨natDecDigits d1.year, pad2Digits (d1.month0 + 1), pad2Digits d1.day,
      pad2Digits d1.hour, bucketKey_data d1, natDecDigits_digits d1.year,
      pad2Digits_digits _, pad2Digits_digits _, pad2Digits_digits _,
      pad2Digits_len (by omega), pad2Digits_len hd1, pad2Digits_len (by omega),
      fun hy1 hy2 => ?_, natDecDigits_val _, pad2Digits_val _, pad2Digits_val _,
      pad2Digits_val _⟩, ?_, bucketKey_inj hm1 hd1 hh1 hm2 hd2 hh2⟩
  · exact natDecDigits_len_four hy1 hy2
  · intro h1 h2 h3 h4
    unfold snapshotBucketKey
    rw [h1, h2, h3, h4]

/-- C5 amended witness: a concrete day rollover — 2025-01-01 23:30 and
2025-01-02 00:30 UTC — yields distinct keys, while 12:02 and 12:04 the same
hour yield the same key. -/
theorem bucket_key_spec_w :
    snapshotBucketKey sampleT1 = snapshotBucketKey sampleT1b ∧
    ¬(JsDate.year ⟨2025, 0, 1, 23, 30⟩ = JsDate.year ⟨2025, 0, 2, 0, 30⟩ ∧
      JsDate.month0 ⟨2025, 0, 1, 23, 30⟩ = JsDate.month0 ⟨2025, 0, 2, 0, 30⟩ ∧
      JsDate.day ⟨2025, 0, 1, 23, 30⟩ = JsDate.day ⟨2025, 0, 2, 0, 30⟩ ∧
      JsDate.hour ⟨2025, 0, 1, 23, 30⟩ = JsDate.hour ⟨2025, 0, 2, 0, 30⟩) ∧
    snapshotBucketKey ⟨2025, 0, 1, 23, 30⟩ ≠ snapshotBucketKey ⟨2025, 0, 2, 0, 30⟩ :=
  ⟨(bucket_key_spec sampleT1 sampleT1b (by decide) (by decide) (by decide)
      (by decide) (by decide) (by decide)).2.1 rfl rfl rfl rfl,
   by decide,
   fun h => (by decide : ¬(JsDate.year ⟨2025, 0, 1, 23, 30⟩ = JsDate.year ⟨2025, 0, 2, 0, 30⟩ ∧
      JsDate.month0 ⟨2025, 0, 1, 23, 30⟩ = JsDate.month0 ⟨2025, 0, 2, 0, 30⟩ ∧
      JsDate.day ⟨2025, 0, 1, 23, 30⟩ = JsDate.day ⟨2025, 0, 2, 0, 30⟩ ∧
      JsDate.hour ⟨2025, 0, 1, 23, 30⟩ = JsDate.hour ⟨2025, 0, 2, 0, 30⟩))
     ((bucket_key_spec ⟨2025, 0, 1, 23, 30⟩ ⟨2025, 0, 2, 0, 30⟩ (by decide) (by decide)
        (by decide) (by decide) (by decide) (by decide)).2.2 h)⟩

/-- C6 counterexample: teardown 100 ms after mount cancels both intervals,
but the 500 ms initial-check `setTimeout` was never stored or cleared — a
scheduler tick still fires at 500 ms, after shutdown. -/
theorem timer_after_teardown_cex :
    ((componentTimers 0 100).filter (fun tm => tm.firesAt 500)).map TimerRec.kind =
      [TimerKind.schedInitialTimeout] ∧ (100 : ℕ) < 500 := by decide

/-- C6 amended: on teardown both interval timers (the 60 s metrics poll and
the 60 s scheduler tick) are cancelled and never fire afterwards; the 500 ms
initial scheduler check is *not* cancelled, so the only tick that can fire
after shutdown is that timeout, exactly once, and only when teardown precedes
its due time. -/
theorem timers_after_teardown (r T t : ℕ) (_hrT : r ≤ T) (hTt : T < t) :
    ∀ tm ∈ componentTimers r T, tm.firesAt t = true →
      tm.kind = TimerKind.schedInitialTimeout ∧ t = r + 500 := by
  intro tm hm hf
  simp only [componentTimers, List.mem_cons, List.not_mem_nil, or_false] at hm
  rcases hm with rfl | rfl | rfl
  · exfalso
    simp only [TimerRec.firesAt, Bool.and_eq_true, decide_eq_true_eq] at hf
    omega
  · exfalso
    simp only [TimerRec.firesAt, Bool.and_eq_true, decide_eq_true_eq] at hf
    omega
  · refine ⟨rfl, ?_⟩
    simp only [TimerRec.firesAt, Bool.and_eq_true, beq_iff_eq] at hf
    exact hf.1

/-- C6 amended witness: in the concrete teardown-at-100ms scenario, the tick
that fires at 500 ms is the initial-check timeout. -/
theorem timers_after_teardown_w :
    TimerRec.kind ⟨.schedInitialTimeout, .timeout 500, 0, none⟩ =
      TimerKind.schedInitialTimeout ∧ (500 : ℕ) = 0 + 500 :=
  timers_after_teardown 0 100 500 (by decide) (by decide)
    ⟨.schedInitialTimeout, .timeout 500, 0, none⟩ (by decide) (by decide)

/-- The per-key sum the grouping loop is specified to compute: the sum of the
numeric contributions of exactly the rows grouped under `k`. -/
def sumCyclesFor (rows : List OrderRow) (k : String) : ℚ :=
  ((rows.filter (fun r => orderRowKey r == k)).map
    (fun r => totalCyclesNum r.total_cycles)).sum

theorem sumCyclesFor_append_singleton (rows : List OrderRow) (r0 : OrderRow) (k : String) :
    sumCyclesFor (rows ++ [r0]) k =
      sumCyclesFor rows k +
        (if orderRowKey r0 = k then totalCyclesNum r0.total_cycles else 0) := by
  unfold sumCyclesFor
  rw [List.filter_append, List.map_append, List.sum_append]
  congr 1
  by_cases h : orderRowKey r0 = k
  · simp [List.filter_singleton, h]
  · simp [List.filter_singleton, h]

theorem sumCyclesFor_eq_zero {rows : List OrderRow} {k : String}
    (h : ∀ r ∈ rows, orderRowKey r ≠ k) : sumCyclesFor rows k = 0 := by
  unfold sumCyclesFor
  have hf : rows.filter (fun r => orderRowKey r == k) = [] := by
    rw [List.filter_eq_nil_iff]
    intro r hr
    simp [h r hr]
  rw [hf]
  rfl

theorem addCycles_keys (t : List (String × ℚ)) (k : String) (q : ℚ) :
    ((addCycles t k q).map Prod.fst = t.map Prod.fst ∧ k ∈ t.map Prod.fst) ∨
    ((addCycles t k q).map Prod.fst = t.map Prod.fst ++ [k] ∧ k ∉ t.map Prod.fst) := by
  induction t with
  | nil => exact Or.inr ⟨rfl, by simp⟩
  | cons p t2 ih =>
    obtain ⟨k2, q2⟩ := p
    have hstep : addCycles ((k2, q2) :: t2) k q =
        if k2 == k then (k2, q2 + q) :: t2 else (k2, q2) :: addCycles t2 k q := rfl
    rw [hstep]
    by_cases h : k2 = k
    · rw [if_pos (by simp [h])]
      exact Or.inl ⟨by simp, by simp [h]⟩
    · rw [if_neg (by simp [h])]
      rcases ih with ⟨h1, h2⟩ | ⟨h1, h2⟩
      · exact Or.inl ⟨by simp [h1], by simp [h2]⟩
      · refine Or.inr ⟨by simp [h1], ?_⟩
        simp only [List.map_cons, List.mem_cons]
        rintro (hc | hc)
        · exact h hc.symm
        · exact h2 hc

theorem addCycles_mem {t : List (String × ℚ)} {k : String} {q : ℚ} {p : String × ℚ}
    (hnd : (t.map Prod.fst).Nodup) (hp : p ∈ addCycles t k q) :
    (p.1 ≠ k ∧ p ∈ t) ∨
    (p.1 = k ∧ ((∀ x ∈ t, x.1 ≠ k) ∧ p = (k, q) ∨
      ∃ qk, (k, qk) ∈ t ∧ p = (k, qk + q))) := by
  induction t with
  | nil =>
    rw [show addCycles [] k q = [(k, q)] from rfl, List.mem_singleton] at hp
    subst hp
    exact Or.inr ⟨rfl, Or.inl ⟨by simp, rfl⟩⟩
  | cons p2 t2 ih =>
    obtain ⟨k2, q2⟩ := p2
    rw [show addCycles ((k2, q2) :: t2) k q =
      if k2 == k then (k2, q2 + q) :: t2 else (k2, q2) :: addCycles t2 k q from rfl] at hp
    simp only [List.map_cons, List.nodup_cons] at hnd
    by_cases h : k2 = k
    · rw [if_pos (by simp [h])] at hp
      rcases List.mem_cons.mp hp with rfl | hmem
      · exact Or.inr ⟨h, Or.inr ⟨q2, by simp [h], by simp [h]⟩⟩
      · left
        refine ⟨?_, List.mem_cons_of_mem _ hmem⟩
        intro hk
        exact hnd.1 (h ▸ hk ▸ List.mem_map_of_mem Prod.fst hmem)
    · rw [if_neg (by simp [h])] at hp
      rcases List.mem_cons.mp hp with rfl | hmem
      · exact Or.inl ⟨h, List.mem_cons_self _ _⟩
      · rcases ih hnd.2 hmem with ⟨h1, h2⟩ | ⟨h1, h2⟩
        · exact Or.inl ⟨h1, List.mem_cons_of_mem _ h2⟩
        · refine Or.inr ⟨h1, ?_⟩
          rcases h2 with ⟨h3, h4⟩ | ⟨qk, h3, h4⟩
          · refine Or.inl ⟨?_, h4⟩
            intro x hx
            rcases List.mem_cons.mp hx with rfl | hx2
            · exact h
            · exact h3 x hx2
          · exact Or.inr ⟨qk, List.mem_cons_of_mem _ h3, h4⟩

/-- The grouping loop computes, for every key it emits, the sum of the
contributions of exactly the rows with that key; its keys are distinct and
each comes from some row; every row's key is represented. -/
theorem buildTotals_spec (rows : List OrderRow) :
    ((buildTotals rows).map Prod.fst).Nodup ∧
    (∀ p ∈ buildTotals rows,
      (∃ r ∈ rows, orderRowKey r = p.1) ∧ p.2 = sumCyclesFor rows p.1) ∧
    (∀ r ∈ rows, orderRowKey r ∈ (buildTotals rows).map Prod.fst) := by
  induction rows using List.reverseRecOn with
  | nil =>
    exact ⟨List.nodup_nil, fun p hp => absurd hp (List.not_mem_nil p),
      fun r hr => absurd hr (List.not_mem_nil r)⟩
  | append_singleton rows r0 ih =>
    obtain ⟨ihnd, ihmem, ihcomp⟩ := ih
    have hstep : buildTotals (rows ++ [r0]) =
        addCycles (buildTotals rows) (orderRowKey r0) (totalCyclesNum r0.total_cycles) := by
      unfold buildTotals
      rw [List.foldl_append]
      rfl
    have hkeys := addCycles_keys (buildTotals rows) (orderRowKey r0)
      (totalCyclesNum r0.total_cycles)
    refine ⟨?_, ?_, ?_⟩
    · rw [hstep]
      rcases hkeys with ⟨h1, _⟩ | ⟨h1, h2⟩
      · rw [h1]; exact ihnd
      · rw [h1, List.nodup_append]
        exact ⟨ihnd, List.nodup_singleton _, by
          intro a ha hb
          rw [List.mem_singleton] at hb
          subst hb
          exact h2 ha⟩
    · intro p hp
      rw [hstep] at hp
      rcases addCycles_mem ihnd hp with ⟨h1, h2⟩ | ⟨h1, h2⟩
      · obtain ⟨⟨r, hr, hrk⟩, hval⟩ := ihmem p h2
        refine ⟨⟨r, List.mem_append_left _ hr, hrk⟩, ?_⟩
        rw [sumCyclesFor_append_singleton, if_neg (fun hc => h1 hc.symm), hval, add_zero]
      · rcases h2 with ⟨h3, rfl⟩ | ⟨qk, h3, rfl⟩
        · refine ⟨⟨r0, List.mem_append_right _ (List.mem_singleton_self r0), rfl⟩, ?_⟩
          have hz : sumCyclesFor rows (orderRowKey r0) = 0 := by
            apply sumCyclesFor_eq_zero
            intro r hr hc
            have hin := ihcomp r hr
            rw [hc] at hin
            obtain ⟨x, hx, hxk⟩ := List.mem_map.mp hin
            exact h3 x hx hxk
          rw [sumCyclesFor_append_singleton, hz, if_pos rfl, zero_add]
        · obtain ⟨⟨r, hr, hrk⟩, hval⟩ := ihmem (orderRowKey r0, qk) h3
          refine ⟨⟨r, List.mem_append_left _ hr, hrk⟩, ?_⟩
          rw [sumCyclesFor_append_singleton, if_pos rfl]
          simpa using congrArg (· + totalCyclesNum r0.total_cycles) hval
    · intro r hr
      rw [hstep]
      rcases List.mem_append.mp hr with hr2 | hr2
      · have hin := ihcomp r hr2
        rcases hkeys with ⟨h1, _⟩ | ⟨h1, _⟩
        · rw [h1]; exact hin
        · rw [h1]; exact List.mem_append_left _ hin
      · rw [List.mem_singleton.mp hr2]
        rcases hkeys with ⟨h1, h2⟩ | ⟨h1, _⟩
        · rw [h1]; exact h2
        · rw [h1]; exact List.mem_append_right _ (List.mem_singleton_self _)

/-- C10: the displayed list is obtained by grouping rows by `prover_addr`
(missing addresses under `"unknown"`), summing `Number(total_cycles)` with
non-numeric values contributing 0, and the result holds at most five entries
in non-increasing order of summed cycles, each entry's cycles being the sum
over exactly the rows grouped under its address. -/
theorem top_provers_pipeline (rows : List OrderRow) :
    (topProversList rows).length ≤ 5 ∧
    (topProversList rows).Sorted cyclesDescOrder ∧
    (∀ p ∈ topProversList rows,
      (∃ r ∈ rows, orderRowKey r = p.1) ∧ p.2 = sumCyclesFor rows p.1) := by
  refine ⟨List.length_take_le 5 _, ?_, ?_⟩
  · exact List.Pairwise.sublist (List.take_sublist 5 _)
      (List.sorted_insertionSort cyclesDescOrder (buildTotals rows))
  · intro p hp
    have hp1 : p ∈ (buildTotals rows).insertionSort cyclesDescOrder :=
      (List.take_sublist 5 _).subset hp
    have hp2 : p ∈ buildTotals rows :=
      (List.perm_insertionSort cyclesDescOrder (buildTotals rows)).subset hp1
    exact (buildTotals_spec rows).2.1 p hp2

/-- C10 witness: on two concrete rows with distinct addresses and numeric
cycles, the pipeline bounds, order and per-key sums hold. -/
theorem top_provers_pipeline_w :
    (topProversList [⟨some "a", .jnum 10⟩, ⟨some "b", .jnum 3⟩]).length ≤ 5 ∧
    ((∃ r ∈ [(⟨some "a", .jnum 10⟩ : OrderRow), ⟨some "b", .jnum 3⟩],
        orderRowKey r = ("a", (10 : ℚ)).1) ∧
      ("a", (10 : ℚ)).2 = sumCyclesFor [⟨some "a", .jnum 10⟩, ⟨some "b", .jnum 3⟩]
        ("a", (10 : ℚ)).1) :=
  ⟨(top_provers_pipeline [⟨some "a", .jnum 10⟩, ⟨some "b", .jnum 3⟩]).1,
   (top_provers_pipeline [⟨some "a", .jnum 10⟩, ⟨some "b", .jnum 3⟩]).2.2
     ("a", (10 : ℚ)) (by decide)⟩

end TopProvers
